import Mathlib

/-!
Shallow embedding of the JVK rendering engine's frame lifecycle and
resource-ownership core (src/src/Engine.cpp, src/src/engine.hpp and the
supporting headers).  Host-side work is modelled as explicit traces of
operations: `Engine.draw` returns the updated engine state together with
the ordered list of host operations it performs, mirroring the source
line by line.  GPU command recording is a sub-trace of `Cmd` values.
-/

namespace JVK

/-- Vulkan image layouts used by the engine (the subset that appears in
`Engine::draw` and `Engine::drawGeometry`). -/
inductive Layout where
  | undefined
  | general
  | colorAttachment
  | transferSrc
  | transferDst
  | depthAttachment
  | presentSrc
deriving DecidableEq, Repr

/-- The images touched while recording one frame: the offscreen draw image,
the depth image, and the acquired swapchain image (identified by its index). -/
inductive Img where
  | drawImage
  | depthImage
  | swapchainImage (idx : Nat)
deriving DecidableEq, Repr

/-- Commands recorded into the frame's command buffer, in source order.
`transition` embeds `transitionImage`, `clearColor` embeds
`vkCmdClearColorImage` (from `Engine::drawBackground`), `copyImage` embeds
`copyImage`, and the remaining constructors embed the calls made by
`Engine::drawGeometry` and `Engine::drawUI`. -/
inductive Cmd where
  | transition (img : Img) (oldLayout newLayout : Layout)
  | clearColor (img : Img)
  | beginRendering (color : Img) (depth : Option Img)
  | bindGraphicsPipeline
  | setViewport
  | setScissor
  | pushConstants
  | bindIndexBuffer
  | drawIndexed
  | copyImage (src dst : Img)
  | renderImGuiDrawData
  | endRendering
deriving DecidableEq, Repr

/-- The per-slot binary semaphores owned by a frame slot:
`frame.swapchainSemaphore` and `frame.drawSemaphore`. -/
inductive Sem where
  | swapchainSem (slot : Nat)
  | drawSem (slot : Nat)
deriving DecidableEq, Repr

/-- The two pipeline stages named in the submit call:
`VK_PIPELINE_STAGE_2_COLOR_ATTACHMENT_OUTPUT_BIT_KHR` and
`VK_PIPELINE_STAGE_2_ALL_GRAPHICS_BIT`. -/
inductive Stage where
  | colorAttachmentOutput
  | allGraphics
deriving DecidableEq, Repr

/-- Host-side operations performed by `Engine::draw`, in order.  Fences are
identified by the frame-slot index owning them (`frame.drawFence`). -/
inductive HostOp where
  | fenceWait (slot : Nat)
  | flushFrameDeletionQueue (slot : Nat)
  | clearFrameDescriptorPools (slot : Nat)
  | fenceReset (slot : Nat)
  | acquireNextImage (slot : Nat)
  | resetCommandBuffer (slot : Nat)
  | beginCommandBuffer (slot : Nat)
  | record (c : Cmd)
  | endCommandBuffer (slot : Nat)
  | queueSubmit (waitSem : Sem) (waitStage : Stage) (signalSem : Sem) (signalStage : Stage)
      (fence : Nat)
  | queuePresent (waitSem : Sem)
deriving DecidableEq, Repr

/-- Engine state relevant to frame sequencing: `frameNumber_` and
`windowResize_`. -/
structure EngineState where
  frameNumber : Nat
  windowResize : Bool
deriving DecidableEq, Repr

/-- `NUM_FRAMES`: the fixed size of the frame-slot ring. -/
def NUM_FRAMES : Nat := 2

/-- `getCurrentFrame`: the engine indexes `frames_[frameNumber_ % NUM_FRAMES]`;
we model the slot index it selects. -/
def currentSlot (s : EngineState) : Nat := s.frameNumber % NUM_FRAMES

/-- Result of `swapchain_.acquireNextImage`: either an image index, or
`VK_ERROR_OUT_OF_DATE_KHR` (the only result the engine branches on). -/
inductive AcquireResult where
  | success (idx : Nat)
  | outOfDateAcquire
deriving DecidableEq, Repr

/-- Result of `vkQueuePresentKHR`: success or `VK_ERROR_OUT_OF_DATE_KHR`
(the only result the engine branches on). -/
inductive PresentResult where
  | presentSuccess
  | outOfDatePresent
deriving DecidableEq, Repr

/-- `Engine::drawBackground`: clears the draw image (in GENERAL layout). -/
def drawBackgroundCmds : List Cmd := [.clearColor .drawImage]

/-- `Engine::drawGeometry`: dynamic-rendering pass over the draw image with
the depth image attached, then pipeline bind, viewport, scissor, push
constants, index-buffer bind and an indexed draw. -/
def drawGeometryCmds : List Cmd :=
  [.beginRendering .drawImage (some .depthImage),
   .bindGraphicsPipeline,
   .setViewport,
   .setScissor,
   .pushConstants,
   .bindIndexBuffer,
   .drawIndexed,
   .endRendering]

/-- `Engine::drawUI`: dynamic-rendering pass over the swapchain image view
(color attachment only) around the UI library's draw call. -/
def drawUICmds (idx : Nat) : List Cmd :=
  [.beginRendering (.swapchainImage idx) none,
   .renderImGuiDrawData,
   .endRendering]

/-- The full command sequence recorded by `Engine::draw` for one frame,
given the acquired swapchain image index (Engine.cpp lines 320-335). -/
def recordedCmds (idx : Nat) : List Cmd :=
  [.transition .drawImage .undefined .general]
    ++ drawBackgroundCmds
    ++ [.transition .drawImage .general .colorAttachment,
        .transition .depthImage .undefined .depthAttachment]
    ++ drawGeometryCmds
    ++ [.transition .drawImage .colorAttachment .transferSrc,
        .transition (.swapchainImage idx) .undefined .transferDst,
        .copyImage .drawImage (.swapchainImage idx),
        .transition (.swapchainImage idx) .transferDst .colorAttachment]
    ++ drawUICmds idx
    ++ [.transition (.swapchainImage idx) .colorAttachment .presentSrc]

/-- The start-of-frame host operations (Engine.cpp lines 300-307): wait on
the slot's fence, flush the slot's deletion queue, clear the slot's
descriptor pools, reset the fence, then acquire the next swapchain image. -/
def framePrologue (slot : Nat) : List HostOp :=
  [.fenceWait slot,
   .flushFrameDeletionQueue slot,
   .clearFrameDescriptorPools slot,
   .fenceReset slot,
   .acquireNextImage slot]

namespace Engine

/-- `Engine::draw` (Engine.cpp lines 299-357) as a trace-producing function.
The acquire and present results are inputs (they come from the native
swapchain).  On `VK_ERROR_OUT_OF_DATE_KHR` from acquire, the resize flag is
set and the function returns immediately; otherwise the frame is recorded,
submitted (waiting on the swapchain semaphore at color-attachment-output,
signaling the draw semaphore at all-graphics, fenced by the slot's fence)
and presented (waiting on the draw semaphore), and `frameNumber_` is
incremented.  The floating-point draw-extent computation is omitted: it
feeds only viewport sizing, which the trace records abstractly. -/
def draw (s : EngineState) (acq : AcquireResult) (pres : PresentResult) :
    EngineState × List HostOp :=
  let slot := currentSlot s
  match acq with
  | .outOfDateAcquire =>
      ({ s with windowResize := true }, framePrologue slot)
  | .success idx =>
      let ops := framePrologue slot
        ++ [.resetCommandBuffer slot, .beginCommandBuffer slot]
        ++ (recordedCmds idx).map HostOp.record
        ++ [.endCommandBuffer slot,
            .queueSubmit (.swapchainSem slot) .colorAttachmentOutput
              (.drawSem slot) .allGraphics slot,
            .queuePresent (.drawSem slot)]
      let s1 := if pres = .outOfDatePresent then { s with windowResize := true } else s
      ({ s1 with frameNumber := s.frameNumber + 1 }, ops)

end Engine

/-- The ordered (old layout, new layout) pairs of the layout transitions
recorded for a given image in a host trace. -/
def transitionsOf (ops : List HostOp) (img : Img) : List (Layout × Layout) :=
  ops.filterMap fun op =>
    match op with
    | .record (.transition i o n) => if i = img then some (o, n) else none
    | _ => none

/-- The ordered submit operations in a host trace, as
(wait semaphore, wait stage, signal semaphore, signal stage, fence) tuples. -/
def submitsOf (ops : List HostOp) : List (Sem × Stage × Sem × Stage × Nat) :=
  ops.filterMap fun op =>
    match op with
    | .queueSubmit w ws sg ss f => some (w, ws, sg, ss, f)
    | _ => none

/-- The ordered present operations in a host trace, by wait semaphore. -/
def presentsOf (ops : List HostOp) : List Sem :=
  ops.filterMap fun op =>
    match op with
    | .queuePresent w => some w
    | _ => none

/-- Fence semantics for bounding in-flight frames: for each of the two
per-slot fences, count the submissions that might still be executing.
A submit fenced by a slot's fence adds one; a host wait on a slot's fence
confirms all prior submissions fenced by it have completed (the fence is
binary and the queue executes submissions in order), zeroing the count. -/
def stepPending (p : Nat × Nat) (op : HostOp) : Nat × Nat :=
  match op with
  | .fenceWait slot => if slot = 0 then (0, p.2) else (p.1, 0)
  | .queueSubmit _ _ _ _ fence => if fence = 0 then (p.1 + 1, p.2) else (p.1, p.2 + 1)
  | _ => p

/-- The largest total number of possibly-still-executing submissions over
every prefix of a host trace, starting from pending counts `p`. -/
def maxInFlight : List HostOp → Nat × Nat → Nat
  | [], p => p.1 + p.2
  | op :: ops, p => max (p.1 + p.2) (maxInFlight ops (stepPending p op))

/-- The host trace of `n` consecutive successfully-presented frames drawn
back to back, as produced by the run loop calling `Engine::draw`. -/
def runFrames : Nat → EngineState → List HostOp
  | 0, _ => []
  | n + 1, s =>
      (Engine.draw s (.success 0) .presentSuccess).2
        ++ runFrames n (Engine.draw s (.success 0) .presentSuccess).1

/-- `DeletionQueue` (engine.hpp lines 84-97): a stack of zero-argument
teardown actions (`std::stack<std::function<void()>>`).  Actions are
abstracted by an arbitrary type; the head of `deletors` is the top of the
stack, i.e. the most recently pushed action. -/
structure DeletionQueue (α : Type) where
  deletors : List α
deriving DecidableEq, Repr

namespace DeletionQueue

variable {α : Type}

/-- A default-constructed (empty) deletion queue. -/
def emptyQueue : DeletionQueue α := ⟨[]⟩

/-- `DeletionQueue::push`: pushes an action onto the stack. -/
def push (q : DeletionQueue α) (a : α) : DeletionQueue α := ⟨a :: q.deletors⟩

/-- The flush loop, `while (!deletors.empty()) \x7b deletors.top()(); deletors.pop(); \x7d`:
returns the actions in execution order paired with the surviving stack
contents. -/
def flushRun : List α → List α × List α
  | [] => ([], [])
  | a :: rest => (a :: (flushRun rest).1, (flushRun rest).2)

/-- `DeletionQueue::flush`: executes and removes all actions, top (most
recently pushed) first; returns the executed actions in order and the
queue afterwards. -/
def flush (q : DeletionQueue α) : List α × DeletionQueue α :=
  ((flushRun q.deletors).1, ⟨(flushRun q.deletors).2⟩)

/-- Push a whole list of actions, in list order. -/
def pushAll (q : DeletionQueue α) (l : List α) : DeletionQueue α := l.foldl push q

end DeletionQueue

/-- Engine resource state relevant to teardown: the `isInit_` flag set at
the end of `Engine::init`, the per-frame and global deletion queues, and
liveness flags for the resources `Engine::destroy` releases directly. -/
structure EngineResources where
  isInit : Bool
  frameQueues : List (DeletionQueue Nat)
  globalQueue : DeletionQueue Nat
  swapchainAlive : Bool
  contextAlive : Bool
  windowAlive : Bool
deriving DecidableEq, Repr

/-- Teardown operations performed by `Engine::destroy`, in order. -/
inductive TeardownOp where
  | deviceWaitIdle
  | destroyFrameCommandPool (slot : Nat)
  | destroyFrameFence (slot : Nat)
  | destroyFrameDrawSemaphore (slot : Nat)
  | destroyFrameSwapchainSemaphore (slot : Nat)
  | runDeletor (a : Nat)
  | destroySwapchainOp
  | destroyContextOp
  | destroyWindowOp
deriving DecidableEq, Repr

namespace Engine

/-- `Engine::destroy` (Engine.cpp lines 42-59): if `isInit_` is false it
returns at once, touching nothing; otherwise it waits for the device to
idle, then for each frame slot destroys the command pool, fence and both
semaphores and flushes that slot's deletion queue, then flushes the global
deletion queue and destroys the swapchain, the context and the window. -/
def destroy (s : EngineResources) : EngineResources × List TeardownOp :=
  if s.isInit = false then (s, [])
  else
    let frameOps := (List.range NUM_FRAMES).flatMap fun i =>
      [.destroyFrameCommandPool i, .destroyFrameFence i,
       .destroyFrameDrawSemaphore i, .destroyFrameSwapchainSemaphore i]
        ++ ((s.frameQueues.getD i DeletionQueue.emptyQueue).flush).1.map TeardownOp.runDeletor
    let ops := [TeardownOp.deviceWaitIdle] ++ frameOps
      ++ (s.globalQueue.flush).1.map TeardownOp.runDeletor
      ++ [.destroySwapchainOp, .destroyContextOp, .destroyWindowOp]
    ({ s with
        frameQueues := List.replicate NUM_FRAMES DeletionQueue.emptyQueue,
        globalQueue := DeletionQueue.emptyQueue,
        swapchainAlive := false, contextAlive := false, windowAlive := false }, ops)

end Engine

/-- A mesh pipeline as built by `PipelineBuilder`, keeping the shader
module handles it was given.  A module handle is `none` when
`loadShaderModule` failed and the local `VkShaderModule` variable was
never written. -/
structure BuiltMeshPipeline where
  vertModule : Option Nat
  fragModule : Option Nat
deriving DecidableEq, Repr

/-- Outcome of `Engine::initMeshPipeline`. -/
structure MeshPipelineInitResult where
  logs : List String
  layoutCreated : Bool
  pipeline : BuiltMeshPipeline
  teardownRegistered : Bool
  aborted : Bool
deriving DecidableEq, Repr

namespace Engine

/-- `Engine::initMeshPipeline` (Engine.cpp lines 517-560), parameterized
by the results of the two `loadShaderModule` calls (`some` handle on
success, `none` on failure).  A failed load is only logged to stderr;
execution continues: the pipeline layout is created, the pipeline is built
from whatever module handles the loads left behind, and the teardown
action is registered.  Nothing aborts and no error is propagated. -/
def initMeshPipeline (vertLoad fragLoad : Option Nat) : MeshPipelineInitResult :=
  let vertLog := if vertLoad.isNone then ["Failed to load vertex shader"] else ([] : List String)
  let fragLog := if fragLoad.isNone then ["Failed to load fragment shader"] else ([] : List String)
  { logs := vertLog ++ fragLog
    layoutCreated := true
    pipeline := { vertModule := vertLoad, fragModule := fragLoad }
    teardownRegistered := true
    aborted := false }

end Engine

/-- Window events delivered by the event poll that `Engine::run` reacts
to: quit, minimize, restore, or anything else. -/
inductive WindowEvent where
  | quitEvent
  | minimizedEvent
  | restoredEvent
  | otherEvent
deriving DecidableEq, Repr

/-- State of the `Engine::run` loop: the local quit flag, the engine's
`stopRendering_` flag and the engine frame state. -/
structure LoopState where
  quitFlag : Bool
  stopRendering : Bool
  engine : EngineState
deriving DecidableEq, Repr

/-- One step of the inner `SDL_PollEvent` loop (Engine.cpp lines 364-372):
quit sets the quit flag, minimize sets `stopRendering_`, restore clears
it, anything else only feeds the UI backend. -/
def processEvent (s : LoopState) (e : WindowEvent) : LoopState :=
  match e with
  | .quitEvent => { s with quitFlag := true }
  | .minimizedEvent => { s with stopRendering := true }
  | .restoredEvent => { s with stopRendering := false }
  | .otherEvent => s

/-- The inner event loop: fold `processEvent` over the polled events in
order. -/
def processEvents (s : LoopState) (es : List WindowEvent) : LoopState :=
  es.foldl processEvent s

/-- Observable actions of one iteration of the `Engine::run` loop body. -/
inductive LoopAction where
  | sleepMs (ms : Nat)
  | resizeSwapchainAction
  | newUIFrame
  | buildAndRenderUI
  | drawFrame
deriving DecidableEq, Repr

/-- One iteration of the `Engine::run` loop body (Engine.cpp lines
363-396), entered with the quit check already passed: poll and process all
pending events; if `stopRendering_` is set, sleep 100 milliseconds and go
back around without touching the renderer; otherwise rebuild the swapchain
if a resize is pending (clearing the flag), run the UI frame, and call
`Engine::draw`. -/
def runIteration (s : LoopState) (events : List WindowEvent) (acq : AcquireResult)
    (pres : PresentResult) : LoopState × List LoopAction :=
  let s1 := processEvents s events
  if s1.stopRendering then (s1, [.sleepMs 100])
  else
    let resized := s1.engine.windowResize
    let e1 := if resized then { s1.engine with windowResize := false } else s1.engine
    let e2 := (Engine.draw e1 acq pres).1
    ({ s1 with engine := e2 },
     (if resized then [LoopAction.resizeSwapchainAction] else [])
       ++ [.newUIFrame, .buildAndRenderUI, .drawFrame])

/-- `sizeof(Vertex)` for the interleaved vertex of mesh.hpp: vec3 position,
float uv_x, vec3 normal, float uv_y, vec4 color = 12 + 4 + 12 + 4 + 16 =
48 bytes (standard layout, no padding). -/
def sizeofVertex : Nat := 48

/-- `sizeof(uint32_t)` = 4 bytes. -/
def sizeofIndex : Nat := 4

/-- A `VkBufferCopy` region. -/
structure BufferCopy where
  srcOffset : Nat
  dstOffset : Nat
  copySize : Nat
deriving DecidableEq, Repr

/-- Destination buffer of a `vkCmdCopyBuffer` issued by `uploadMesh`. -/
inductive CopyDst where
  | vertexBufferDst
  | indexBufferDst
deriving DecidableEq, Repr

/-- Host and recorded operations performed by `Engine::uploadMesh` and the
immediate-submit helper, in order. -/
inductive UploadOp where
  | createVertexBuffer (size : Nat)
  | getBufferDeviceAddress
  | createIndexBuffer (size : Nat)
  | createStagingBuffer (size : Nat)
  | mapStaging
  | writeStaging (offset size : Nat)
  | unmapStaging
  | resetImmFence
  | resetImmCommandBuffer
  | beginImmCommandBuffer
  | copyBufferCmd (dst : CopyDst) (c : BufferCopy)
  | endImmCommandBuffer
  | submitImm
  | waitImmFence
  | destroyStagingBuffer
deriving DecidableEq, Repr

/-- The blocking one-shot submission helper (`JVKEngine::immediateSubmit`,
engine.cpp lines 533-554, used by `Engine::uploadMesh` through
`immediateBuffer_.submit`): reset the dedicated fence and command buffer,
begin recording, record the caller's commands, end recording, submit with
the dedicated fence, and block waiting on that fence before returning. -/
def immediateSubmit (recorded : List UploadOp) : List UploadOp :=
  [.resetImmFence, .resetImmCommandBuffer, .beginImmCommandBuffer]
    ++ recorded
    ++ [.endImmCommandBuffer, .submitImm, .waitImmFence]

namespace Engine

/-- `Engine::uploadMesh` (Engine.cpp lines 474-515) as the trace of its
operations, given the index and vertex counts: allocate the GPU-local
vertex buffer of `vertices.size() * sizeof(Vertex)` bytes and index buffer
of `indices.size() * sizeof(uint32_t)` bytes, allocate a staging buffer of
their sum, map it and copy vertex bytes to offset 0 and index bytes to
offset `vertexBufferSize`, record two `vkCmdCopyBuffer` commands inside a
blocking immediate submission, and destroy the staging buffer after the
submission has completed. -/
def uploadMesh (nIndices nVertices : Nat) : List UploadOp :=
  let vertexBufferSize := nVertices * sizeofVertex
  let indexBufferSize := nIndices * sizeofIndex
  [.createVertexBuffer vertexBufferSize, .getBufferDeviceAddress,
   .createIndexBuffer indexBufferSize,
   .createStagingBuffer (vertexBufferSize + indexBufferSize),
   .mapStaging,
   .writeStaging 0 vertexBufferSize,
   .writeStaging vertexBufferSize indexBufferSize,
   .unmapStaging]
    ++ immediateSubmit
        [.copyBufferCmd .vertexBufferDst ⟨0, 0, vertexBufferSize⟩,
         .copyBufferCmd .indexBufferDst ⟨vertexBufferSize, 0, indexBufferSize⟩]
    ++ [.destroyStagingBuffer]

end Engine

/-- The (offset, size) pairs of the staging-memory writes in an upload
trace, in order. -/
def stagingWritesOf (t : List UploadOp) : List (Nat × Nat) :=
  t.filterMap fun op =>
    match op with
    | .writeStaging o s => some (o, s)
    | _ => none

/-- The buffer-copy commands in an upload trace, in order. -/
def copyCmdsOf (t : List UploadOp) : List (CopyDst × BufferCopy) :=
  t.filterMap fun op =>
    match op with
    | .copyBufferCmd d c => some (d, c)
    | _ => none

/-- The sizes of the vertex-buffer allocations in an upload trace. -/
def vertexAllocsOf (t : List UploadOp) : List Nat :=
  t.filterMap fun op =>
    match op with
    | .createVertexBuffer n => some n
    | _ => none

/-- The sizes of the index-buffer allocations in an upload trace. -/
def indexAllocsOf (t : List UploadOp) : List Nat :=
  t.filterMap fun op =>
    match op with
    | .createIndexBuffer n => some n
    | _ => none

/-- The sizes of the staging-buffer allocations in an upload trace. -/
def stagingAllocsOf (t : List UploadOp) : List Nat :=
  t.filterMap fun op =>
    match op with
    | .createStagingBuffer n => some n
    | _ => none

end JVK

namespace JVK

/-- Claim C1 development check: the transitions of the draw image in a
frame recorded at frame number 0 with swapchain image 5. -/
example :
    transitionsOf (Engine.draw ⟨0, false⟩ (.success 5) .presentSuccess).2 .drawImage =
      [(.undefined, .general), (.general, .colorAttachment), (.colorAttachment, .transferSrc)] := by
  decide

/-- Claim C1: in every recorded frame (any engine state, any acquired
swapchain image index, any present result), the layout transitions are
issued in exactly the spec's order: the draw image goes UNDEFINED to
GENERAL, then GENERAL to COLOR_ATTACHMENT_OPTIMAL, then
COLOR_ATTACHMENT_OPTIMAL to TRANSFER_SRC_OPTIMAL; the acquired swapchain
image goes UNDEFINED to TRANSFER_DST_OPTIMAL, then TRANSFER_DST_OPTIMAL to
COLOR_ATTACHMENT_OPTIMAL, then COLOR_ATTACHMENT_OPTIMAL to PRESENT_SRC;
the depth image transitions UNDEFINED to DEPTH_ATTACHMENT_OPTIMAL exactly
once, immediately before the geometry rendering pass begins. -/
theorem draw_layout_transition_order (s : EngineState) (idx : Nat) (pres : PresentResult) :
    transitionsOf (Engine.draw s (.success idx) pres).2 .drawImage =
      [(.undefined, .general), (.general, .colorAttachment), (.colorAttachment, .transferSrc)] ∧
    transitionsOf (Engine.draw s (.success idx) pres).2 (.swapchainImage idx) =
      [(.undefined, .transferDst), (.transferDst, .colorAttachment),
       (.colorAttachment, .presentSrc)] ∧
    transitionsOf (Engine.draw s (.success idx) pres).2 .depthImage =
      [(.undefined, .depthAttachment)] ∧
    ∃ l1 l2, (Engine.draw s (.success idx) pres).2 =
      l1 ++ [HostOp.record (.transition .depthImage .undefined .depthAttachment),
             HostOp.record (.beginRendering .drawImage (some .depthImage))] ++ l2 := by
  refine ⟨?_, ?_, ?_, ?_⟩
  · simp [Engine.draw, transitionsOf, recordedCmds, framePrologue, drawBackgroundCmds,
      drawGeometryCmds, drawUICmds]
  · simp [Engine.draw, transitionsOf, recordedCmds, framePrologue, drawBackgroundCmds,
      drawGeometryCmds, drawUICmds]
  · simp [Engine.draw, transitionsOf, recordedCmds, framePrologue, drawBackgroundCmds,
      drawGeometryCmds, drawUICmds]
  · refine ⟨framePrologue (currentSlot s)
      ++ [.resetCommandBuffer (currentSlot s), .beginCommandBuffer (currentSlot s),
          .record (.transition .drawImage .undefined .general),
          .record (.clearColor .drawImage),
          .record (.transition .drawImage .general .colorAttachment)],
      [.record .bindGraphicsPipeline, .record .setViewport, .record .setScissor,
       .record .pushConstants, .record .bindIndexBuffer, .record .drawIndexed,
       .record .endRendering,
       .record (.transition .drawImage .colorAttachment .transferSrc),
       .record (.transition (.swapchainImage idx) .undefined .transferDst),
       .record (.copyImage .drawImage (.swapchainImage idx)),
       .record (.transition (.swapchainImage idx) .transferDst .colorAttachment),
       .record (.beginRendering (.swapchainImage idx) none),
       .record .renderImGuiDrawData, .record .endRendering,
       .record (.transition (.swapchainImage idx) .colorAttachment .presentSrc),
       .endCommandBuffer (currentSlot s),
       .queueSubmit (.swapchainSem (currentSlot s)) .colorAttachmentOutput
         (.drawSem (currentSlot s)) .allGraphics (currentSlot s),
       .queuePresent (.drawSem (currentSlot s))], ?_⟩
    simp [Engine.draw, recordedCmds, framePrologue, drawBackgroundCmds,
      drawGeometryCmds, drawUICmds]

/-- The pending total at the start of a trace never exceeds its maximum. -/
theorem le_maxInFlight (l : List HostOp) (p : Nat × Nat) : p.1 + p.2 ≤ maxInFlight l p := by
  cases l <;> simp [maxInFlight]

/-- `maxInFlight` splits over trace concatenation. -/
theorem maxInFlight_append (a b : List HostOp) (p : Nat × Nat) :
    maxInFlight (a ++ b) p = max (maxInFlight a p) (maxInFlight b (a.foldl stepPending p)) := by
  induction a generalizing p with
  | nil =>
      simp [maxInFlight, Nat.max_eq_right (le_maxInFlight b p)]
  | cons op rest ih =>
      simp [maxInFlight, ih, Nat.max_assoc]

/-- Over one successfully-presented frame, starting from at most one pending
submission per fence, the in-flight total never exceeds 2. -/
theorem frame_maxInFlight_le (s : EngineState) (p : Nat × Nat)
    (h1 : p.1 ≤ 1) (h2 : p.2 ≤ 1) :
    maxInFlight (Engine.draw s (.success 0) .presentSuccess).2 p ≤ 2 := by
  rcases Nat.mod_two_eq_zero_or_one s.frameNumber with h | h <;>
    simp [Engine.draw, currentSlot, NUM_FRAMES, framePrologue, recordedCmds,
      drawBackgroundCmds, drawGeometryCmds, drawUICmds, maxInFlight, stepPending, h] <;>
    omega

/-- One successfully-presented frame leaves each fence with at most one
pending submission (the slot it used has exactly one, the other is
unchanged). -/
theorem frame_foldPending (s : EngineState) (p : Nat × Nat)
    (h1 : p.1 ≤ 1) (h2 : p.2 ≤ 1) :
    ((Engine.draw s (.success 0) .presentSuccess).2.foldl stepPending p).1 ≤ 1 ∧
    ((Engine.draw s (.success 0) .presentSuccess).2.foldl stepPending p).2 ≤ 1 := by
  rcases Nat.mod_two_eq_zero_or_one s.frameNumber with h | h <;>
    simp [Engine.draw, currentSlot, NUM_FRAMES, framePrologue, recordedCmds,
      drawBackgroundCmds, drawGeometryCmds, drawUICmds, stepPending, h] <;>
    omega

/-- Over any number of back-to-back frames, starting from at most one
pending submission per fence, the in-flight total never exceeds 2. -/
theorem runFrames_maxInFlight (n : Nat) (s : EngineState) (p : Nat × Nat)
    (h1 : p.1 ≤ 1) (h2 : p.2 ≤ 1) :
    maxInFlight (runFrames n s) p ≤ 2 := by
  induction n generalizing s p with
  | zero => simp [runFrames, maxInFlight]; omega
  | succ n ih =>
      rw [runFrames, maxInFlight_append]
      have hf := frame_foldPending s p h1 h2
      exact max_le (frame_maxInFlight_le s p h1 h2) (ih _ _ hf.1 hf.2)

/-- Claim C2: every frame starts by waiting on the current slot's fence,
then flushing that slot's deletion queue, then clearing its descriptor
pools, then resetting the fence, and only then acquiring a swapchain
image (whatever the acquire and present results); and under the binary
fence semantics, over any run of back-to-back frames the number of
possibly-in-flight submissions never exceeds NUM_FRAMES = 2. -/
theorem draw_frame_prologue_and_inflight_bound :
    (∀ (s : EngineState) (acq : AcquireResult) (pres : PresentResult),
      ∃ rest, (Engine.draw s acq pres).2 =
        [.fenceWait (currentSlot s), .flushFrameDeletionQueue (currentSlot s),
         .clearFrameDescriptorPools (currentSlot s), .fenceReset (currentSlot s),
         .acquireNextImage (currentSlot s)] ++ rest) ∧
    (∀ (n : Nat) (s : EngineState), maxInFlight (runFrames n s) (0, 0) ≤ NUM_FRAMES) := by
  constructor
  · intro s acq pres
    cases acq with
    | outOfDateAcquire => exact ⟨[], by simp [Engine.draw, framePrologue]⟩
    | success idx =>
        refine ⟨[.resetCommandBuffer (currentSlot s), .beginCommandBuffer (currentSlot s)]
          ++ (recordedCmds idx).map HostOp.record
          ++ [.endCommandBuffer (currentSlot s),
              .queueSubmit (.swapchainSem (currentSlot s)) .colorAttachmentOutput
                (.drawSem (currentSlot s)) .allGraphics (currentSlot s),
              .queuePresent (.drawSem (currentSlot s))], ?_⟩
        simp [Engine.draw, framePrologue]
  · intro n s
    simpa [NUM_FRAMES] using runFrames_maxInFlight n s (0, 0) (by omega) (by omega)

/-- Claim C3: when acquire reports the surface out of date, `Engine::draw`
sets the resize flag and returns having issued no submit and no present;
the trace is exactly the frame prologue, in which the slot's fence was
reset (fourth operation) and is never re-signalled by a submission; the
frame number is unchanged. -/
theorem draw_out_of_date_acquire_aborts (s : EngineState) (pres : PresentResult) :
    (Engine.draw s .outOfDateAcquire pres).1.windowResize = true ∧
    (Engine.draw s .outOfDateAcquire pres).1.frameNumber = s.frameNumber ∧
    submitsOf (Engine.draw s .outOfDateAcquire pres).2 = [] ∧
    presentsOf (Engine.draw s .outOfDateAcquire pres).2 = [] ∧
    (Engine.draw s .outOfDateAcquire pres).2 =
      [.fenceWait (currentSlot s), .flushFrameDeletionQueue (currentSlot s),
       .clearFrameDescriptorPools (currentSlot s), .fenceReset (currentSlot s),
       .acquireNextImage (currentSlot s)] := by
  refine ⟨rfl, rfl, ?_, ?_, ?_⟩ <;>
    simp [Engine.draw, framePrologue, submitsOf, presentsOf]

/-- Claim C6: every completed frame issues exactly one queue submission,
which waits on the slot's swapchain (acquire) semaphore at the
color-attachment-output stage, signals the slot's draw (render) semaphore
at the all-graphics stage, and is fenced by the slot's fence; exactly one
present follows, waiting on that draw semaphore, and the submit and
present are the last two host operations, in that order. -/
theorem draw_submit_present_wiring (s : EngineState) (idx : Nat) (pres : PresentResult) :
    submitsOf (Engine.draw s (.success idx) pres).2 =
      [(.swapchainSem (currentSlot s), .colorAttachmentOutput,
        .drawSem (currentSlot s), .allGraphics, currentSlot s)] ∧
    presentsOf (Engine.draw s (.success idx) pres).2 = [.drawSem (currentSlot s)] ∧
    ∃ l, (Engine.draw s (.success idx) pres).2 =
      l ++ [.queueSubmit (.swapchainSem (currentSlot s)) .colorAttachmentOutput
              (.drawSem (currentSlot s)) .allGraphics (currentSlot s),
            .queuePresent (.drawSem (currentSlot s))] := by
  refine ⟨?_, ?_, ?_⟩
  · simp [Engine.draw, framePrologue, recordedCmds, drawBackgroundCmds,
      drawGeometryCmds, drawUICmds, submitsOf]
  · simp [Engine.draw, framePrologue, recordedCmds, drawBackgroundCmds,
      drawGeometryCmds, drawUICmds, presentsOf]
  · refine ⟨framePrologue (currentSlot s)
      ++ [.resetCommandBuffer (currentSlot s), .beginCommandBuffer (currentSlot s)]
      ++ (recordedCmds idx).map HostOp.record
      ++ [.endCommandBuffer (currentSlot s)], ?_⟩
    simp [Engine.draw]

/-- Claim C7: the frame-slot ring has exactly NUM_FRAMES = 2 slots; the
current slot is always `frameNumber % 2`; a completed (submitted and
presented) frame increments the frame number exactly once, so consecutive
completed frames use different slots and the slot repeats every second
frame. -/
theorem frame_ring_two_slots_alternating :
    NUM_FRAMES = 2 ∧
    (∀ s : EngineState, currentSlot s = s.frameNumber % 2) ∧
    (∀ (s : EngineState) (idx : Nat) (pres : PresentResult),
      (Engine.draw s (.success idx) pres).1.frameNumber = s.frameNumber + 1) ∧
    (∀ (s : EngineState) (idx : Nat) (pres : PresentResult),
      currentSlot (Engine.draw s (.success idx) pres).1 ≠ currentSlot s) ∧
    (∀ (s : EngineState) (i1 i2 : Nat) (p1 p2 : PresentResult),
      currentSlot (Engine.draw (Engine.draw s (.success i1) p1).1 (.success i2) p2).1 =
        currentSlot s) := by
  refine ⟨rfl, fun s => rfl, fun s idx pres => rfl, ?_, ?_⟩
  · intro s idx pres
    simp [Engine.draw, currentSlot, NUM_FRAMES]
    omega
  · intro s i1 i2 p1 p2
    simp [Engine.draw, currentSlot, NUM_FRAMES]
    omega

/-- The flush loop executes the stack contents top-down and empties it. -/
theorem DeletionQueue.flushRun_eq {α : Type} (l : List α) :
    DeletionQueue.flushRun l = (l, []) := by
  induction l with
  | nil => rfl
  | cons a rest ih => simp [DeletionQueue.flushRun, ih]

/-- Pushing a list of actions stacks them in reverse on top of the
existing contents. -/
theorem DeletionQueue.pushAll_deletors {α : Type} (q : DeletionQueue α) (l : List α) :
    (DeletionQueue.pushAll q l).deletors = l.reverse ++ q.deletors := by
  induction l generalizing q with
  | nil => simp [DeletionQueue.pushAll]
  | cons a rest ih =>
      simp [DeletionQueue.pushAll, List.foldl_cons] at ih ⊢
      rw [ih (q.push a)]
      simp [DeletionQueue.push]

/-- Claim C4: for every sequence of pushed actions, `flush` executes every
pushed action exactly once, most recently pushed first (the execution
order is the reverse of the registration order), and leaves the queue
empty; flushing an empty queue executes nothing and is a no-op. -/
theorem deletion_queue_flush_lifo (α : Type) (l : List α) :
    DeletionQueue.flush (DeletionQueue.pushAll DeletionQueue.emptyQueue l) =
      (l.reverse, DeletionQueue.emptyQueue) ∧
    DeletionQueue.flush (DeletionQueue.emptyQueue : DeletionQueue α) =
      ([], DeletionQueue.emptyQueue) := by
  constructor
  · simp [DeletionQueue.flush, DeletionQueue.pushAll_deletors, DeletionQueue.flushRun_eq,
      DeletionQueue.emptyQueue]
  · rfl

/-- Claim C5: `uploadMesh(indices, vertices)` allocates a vertex buffer of
exactly `vertices.size() * sizeof(Vertex)` bytes, an index buffer of
exactly `indices.size() * sizeof(uint32_t)` bytes, and one staging buffer
of their sum; it writes vertex bytes into staging at offset 0 and index
bytes at offset exactly the vertex byte size; it records exactly two
buffer copies - staging offset 0, size = vertex bytes, into the vertex
buffer, and staging offset = vertex bytes, size = index bytes, into the
index buffer - and those copies sit inside the blocking one-shot
submission, whose fence wait precedes the staging-buffer destruction. -/
theorem uploadMesh_staging_layout_and_copies (nIndices nVertices : Nat) :
    vertexAllocsOf (Engine.uploadMesh nIndices nVertices) = [nVertices * sizeofVertex] ∧
    indexAllocsOf (Engine.uploadMesh nIndices nVertices) = [nIndices * sizeofIndex] ∧
    stagingAllocsOf (Engine.uploadMesh nIndices nVertices) =
      [nVertices * sizeofVertex + nIndices * sizeofIndex] ∧
    stagingWritesOf (Engine.uploadMesh nIndices nVertices) =
      [(0, nVertices * sizeofVertex), (nVertices * sizeofVertex, nIndices * sizeofIndex)] ∧
    copyCmdsOf (Engine.uploadMesh nIndices nVertices) =
      [(.vertexBufferDst, ⟨0, 0, nVertices * sizeofVertex⟩),
       (.indexBufferDst, ⟨nVertices * sizeofVertex, 0, nIndices * sizeofIndex⟩)] ∧
    ∃ l, Engine.uploadMesh nIndices nVertices =
      l ++ [.beginImmCommandBuffer,
            .copyBufferCmd .vertexBufferDst ⟨0, 0, nVertices * sizeofVertex⟩,
            .copyBufferCmd .indexBufferDst ⟨nVertices * sizeofVertex, 0, nIndices * sizeofIndex⟩,
            .endImmCommandBuffer, .submitImm, .waitImmFence, .destroyStagingBuffer] := by
  refine ⟨?_, ?_, ?_, ?_, ?_, ?_⟩
  · simp [Engine.uploadMesh, immediateSubmit, vertexAllocsOf]
  · simp [Engine.uploadMesh, immediateSubmit, indexAllocsOf]
  · simp [Engine.uploadMesh, immediateSubmit, stagingAllocsOf]
  · simp [Engine.uploadMesh, immediateSubmit, stagingWritesOf]
  · simp [Engine.uploadMesh, immediateSubmit, copyCmdsOf]
  · refine ⟨[.createVertexBuffer (nVertices * sizeofVertex), .getBufferDeviceAddress,
      .createIndexBuffer (nIndices * sizeofIndex),
      .createStagingBuffer (nVertices * sizeofVertex + nIndices * sizeofIndex),
      .mapStaging,
      .writeStaging 0 (nVertices * sizeofVertex),
      .writeStaging (nVertices * sizeofVertex) (nIndices * sizeofIndex),
      .unmapStaging, .resetImmFence, .resetImmCommandBuffer], ?_⟩
    simp [Engine.uploadMesh, immediateSubmit]

/-- Claim C8: while the stop-rendering flag is set after event processing,
the iteration of the run loop performs exactly a 100-millisecond sleep and
in particular never calls the frame draw function; a minimize event sets
the flag and a restore event clears it; and whenever the flag is clear
after event processing, the iteration does call the frame draw function. -/
theorem run_loop_minimized_skips_draw :
    (∀ (s : LoopState) (es : List WindowEvent) (acq : AcquireResult) (pres : PresentResult),
      (processEvents s es).stopRendering = true →
        (runIteration s es acq pres).2 = [.sleepMs 100] ∧
        LoopAction.drawFrame ∉ (runIteration s es acq pres).2) ∧
    (∀ s : LoopState, (processEvent s .minimizedEvent).stopRendering = true ∧
        (processEvent s .restoredEvent).stopRendering = false) ∧
    (∀ (s : LoopState) (es : List WindowEvent) (acq : AcquireResult) (pres : PresentResult),
      (processEvents s es).stopRendering = false →
        LoopAction.drawFrame ∈ (runIteration s es acq pres).2) := by
  refine ⟨?_, ?_, ?_⟩
  · intro s es acq pres h
    simp [runIteration, h]
  · intro s
    exact ⟨rfl, rfl⟩
  · intro s es acq pres h
    simp [runIteration, h]

/-- Claim C8 witness: with the stop-rendering flag set and no pending
events, the iteration just sleeps; after a restore event the next
iteration draws. -/
theorem run_loop_minimized_skips_draw_witness :
    (runIteration ⟨false, true, ⟨0, false⟩⟩ [] .outOfDateAcquire .presentSuccess).2 =
      [.sleepMs 100] ∧
    LoopAction.drawFrame ∈
      (runIteration ⟨false, true, ⟨0, false⟩⟩ [.restoredEvent] (.success 0)
        .presentSuccess).2 := by
  constructor
  · exact (run_loop_minimized_skips_draw.1 ⟨false, true, ⟨0, false⟩⟩ []
      .outOfDateAcquire .presentSuccess (by decide)).1
  · exact run_loop_minimized_skips_draw.2.2 ⟨false, true, ⟨0, false⟩⟩ [.restoredEvent]
      (.success 0) .presentSuccess (by decide)

/-- Claim C9: when loading a shader module fails (one or both of the load
results is `none`), `initMeshPipeline` logs the failure and continues: it
does not abort and propagates no error, it still creates the pipeline
layout, builds the pipeline from the unloaded module handles exactly as
given, and registers the teardown action. -/
theorem shader_load_failure_soft (vertLoad fragLoad : Option Nat)
    (h : vertLoad = none ∨ fragLoad = none) :
    (Engine.initMeshPipeline vertLoad fragLoad).aborted = false ∧
    (Engine.initMeshPipeline vertLoad fragLoad).logs ≠ [] ∧
    (Engine.initMeshPipeline vertLoad fragLoad).layoutCreated = true ∧
    (Engine.initMeshPipeline vertLoad fragLoad).pipeline =
      { vertModule := vertLoad, fragModule := fragLoad } ∧
    (Engine.initMeshPipeline vertLoad fragLoad).teardownRegistered = true := by
  refine ⟨rfl, ?_, rfl, rfl, rfl⟩
  rcases h with h | h <;> simp [Engine.initMeshPipeline, h]

/-- Claim C9 witness: a failed vertex-shader load alongside a successful
fragment-shader load still yields a built (broken) pipeline and no abort. -/
theorem shader_load_failure_soft_witness :
    (Engine.initMeshPipeline none (some 7)).aborted = false ∧
    (Engine.initMeshPipeline none (some 7)).logs ≠ [] ∧
    (Engine.initMeshPipeline none (some 7)).layoutCreated = true ∧
    (Engine.initMeshPipeline none (some 7)).pipeline =
      { vertModule := none, fragModule := some 7 } ∧
    (Engine.initMeshPipeline none (some 7)).teardownRegistered = true :=
  shader_load_failure_soft none (some 7) (Or.inl rfl)

/-- Claim C10: calling `Engine::destroy` before initialization completed
(the `isInit_` flag still false) destroys no resources and flushes no
deletion queue: the teardown trace is empty and the resource state is
returned unchanged. -/
theorem destroy_uninitialized_noop (s : EngineResources) (h : s.isInit = false) :
    Engine.destroy s = (s, []) := by
  simp [Engine.destroy, h]

/-- Claim C10 witness: an uninitialized engine with pending deletion-queue
entries and live resources is left untouched by `destroy`. -/
theorem destroy_uninitialized_noop_witness :
    Engine.destroy ⟨false, [⟨[1, 2]⟩, ⟨[3]⟩], ⟨[4, 5]⟩, true, true, true⟩ =
      (⟨false, [⟨[1, 2]⟩, ⟨[3]⟩], ⟨[4, 5]⟩, true, true, true⟩, []) :=
  destroy_uninitialized_noop ⟨false, [⟨[1, 2]⟩, ⟨[3]⟩], ⟨[4, 5]⟩, true, true, true⟩ rfl

end JVK
